import Mathlib

/-!
Verification of the night-plan parsing core (`src/lib/parser.py`) of the
p2obp repository.  The Python functions are shallowly embedded: strings are
Lean `String`s, the line list read from the file is a `List String` (each
element keeps its trailing newline, as `readlines` produces), and Python
exceptions are modelled with `Except PyErr`.
-/

namespace P2obp

/-- Error kinds raised by the embedded Python code. -/
inductive PyErr where
  | indexError
  | nameError
deriving DecidableEq, Repr

instance {ε α : Type} [DecidableEq ε] [DecidableEq α] : DecidableEq (Except ε α) := by
  intro a b
  cases a <;> cases b <;> first
    | (apply isFalse; intro h; exact Except.noConfusion h)
    | (rename_i x y
       exact match decEq x y with
         | isTrue h => isTrue (by rw [h])
         | isFalse h => isFalse (fun hc => h (by cases hc; rfl)))

/-! ## Python string primitives -/

/-- Characters treated as whitespace by Python `str.split()` / `str.strip()`. -/
def pyIsSpace (c : Char) : Bool :=
  c = ' ' || c = '\t' || c = '\n' || c = '\r' || c = '\x0b' || c = '\x0c'

/-- Split a character list at every character satisfying `p`, keeping empty
segments (the semantics of Python `str.split(sep)` for a one-character `sep`). -/
def splitOnPred (p : Char → Bool) : List Char → List (List Char)
  | [] => [[]]
  | c :: rest =>
    if p c then [] :: splitOnPred p rest
    else
      match splitOnPred p rest with
      | [] => [[c]]
      | g :: gs => (c :: g) :: gs

/-- Python `s.split(sep)` for a single-character separator: keeps empty fields. -/
def pySplitOn (s : String) (sep : Char) : List String :=
  (splitOnPred (fun c => c = sep) s.data).map String.mk

/-- Python `s.split()` with no argument: split on whitespace runs, dropping
empty fields. -/
def pySplitWs (s : String) : List String :=
  ((splitOnPred pyIsSpace s.data).filter (fun g => g ≠ [])).map String.mk

/-- Containment of `needle` in `hay` as a character sequence. -/
def containsChars (needle : List Char) : List Char → Bool
  | [] => needle.isEmpty
  | c :: rest => needle.isPrefixOf (c :: rest) || containsChars needle rest

/-- Python `needle in hay` on strings (substring test). -/
def pyContains (hay needle : String) : Bool :=
  containsChars needle.data hay.data

/-- Python `s.lower()` (ASCII case folding suffices for these inputs). -/
def pyLower (s : String) : String :=
  String.mk (s.data.map Char.toLower)

/-- Python `s.strip()`: drop whitespace from both ends. -/
def pyStrip (s : String) : String :=
  String.mk (((s.data.dropWhile pyIsSpace).reverse.dropWhile pyIsSpace).reverse)

/-- Python `s.replace('\n', '')`: remove every newline character. -/
def stripNewlines (s : String) : String :=
  String.mk (s.data.filter (fun c => c ≠ '\n'))

/-- Python `s[0]` on a string: the first character, or `IndexError`. -/
def pyFirstChar (s : String) : Except PyErr Char :=
  match s.data with
  | [] => .error .indexError
  | c :: _ => .ok c

/-- Python `ls[i]` on a list: the element, or `IndexError`. -/
def pyNth (ls : List String) (i : Nat) : Except PyErr String :=
  match ls[i]? with
  | some l => .ok l
  | none => .error .indexError

/-- Python slice `ls[i:j]` (never raises; clamps at the ends). -/
def sliceTo (ls : List String) (i j : Nat) : List String :=
  (ls.take j).drop i

/-! ## Python dict built from labelled pairs

Insertion order is kept; assigning to an existing key overwrites the value
in place (last write wins, first position kept). -/

def dictInsert {α : Type} (d : List (String × α)) (key : String) (v : α) :
    List (String × α) :=
  if d.any (fun p => p.1 = key) then
    d.map (fun p => if p.1 = key then (key, v) else p)
  else d ++ [(key, v)]

def dictOf {α : Type} (pairs : List (String × α)) : List (String × α) :=
  pairs.foldl (fun d p => dictInsert d p.1 p.2) []

/-! ## `get_file_section` (parser.py lines 64-93) -/

/-- Line 83 of parser.py: a line is a marker for `identifier` when the
identifier occurs in the lowered line and the line's first
whitespace-delimited token, lowered, equals it.  `line.split()[0]` raises
`IndexError` on an all-whitespace line. -/
def markerTest (identifier line : String) : Except PyErr Bool :=
  if pyContains (pyLower line) identifier then
    match pySplitWs line with
    | [] => .error .indexError
    | tok :: _ => .ok (pyLower tok = identifier)
  else .ok false

/-- Lines 81-85: collect `(index, line.replace('\n',''))` for every marker line. -/
def markerScanAux (identifier : String) : Nat → List String → Except PyErr (List (Nat × String))
  | _, [] => .ok []
  | i, line :: rest => do
    let b ← markerTest identifier line
    let tl ← markerScanAux identifier (i + 1) rest
    if b then .ok ((i, stripNewlines line) :: tl) else .ok tl

/-- Lines 90-91 in the multi-marker case: each section is
`lines[index:indices[i+1]]`; at the last index, `indices[i+1]` is an
out-of-range list access and raises `IndexError`. -/
def sectionsMulti (lines : List String) : List Nat → Except PyErr (List (List String))
  | [] => .ok []
  | [_] => .error .indexError
  | i :: j :: rest => do
    let tl ← sectionsMulti lines (j :: rest)
    .ok (sliceTo lines i j :: tl)

/-- Lines 64-93: `get_file_section(lines, identifier)`. -/
def get_file_section (lines : List String) (identifier : String) :
    Except PyErr (List (String × List String)) := do
  let ms ← markerScanAux identifier 0 lines
  let pairs := if ms = [] then [(0, "full_" ++ identifier)] else ms
  let sections ←
    if pairs.length = 1 then .ok (pairs.map (fun p => lines.drop p.1))
    else sectionsMulti lines (pairs.map (fun p => p.1))
  .ok (dictOf ((pairs.map (fun p => p.2)).zip sections))

/-! ## `get_targets_calibrators_tags` (parser.py lines 96-159) -/

/-- The parsed result for one night: parallel SCI / CAL / TAG lists. -/
structure NightEntry where
  SCI : List String
  CAL : List (List String)
  TAG : List (List String)
deriving DecidableEq, Repr

/-- The mutable state of the classification loop (lines 113-114):
`sci_lst`, `cal_lst`, `tag_lst`, the `double_sci` flag and the group
`counter`. -/
structure ClsState where
  sci_lst : List String
  cal_lst : List (List String)
  tag_lst : List (List String)
  double_sci : Bool
  counter : Nat
deriving DecidableEq, Repr

/-- Initial loop state (lines 113-114). -/
def initClsState : ClsState := ⟨[], [[]], [[]], false, 0⟩

/-- Python `line.split()[0][0].isdigit()`: `IndexError` on an empty or
all-whitespace line (an `str.split()` token is never empty, so the second
subscript cannot fail). -/
def firstTokFirstCharDigit (s : String) : Except PyErr Bool := do
  match pySplitWs s with
  | [] => .error .indexError
  | tok :: _ => do
    let c ← pyFirstChar tok
    .ok c.isDigit

/-- Lines 118-119: the group-boundary condition
`((line == '') or (not line.split()[0][0].isdigit())) and
(lines[index+1].split()[0][0].isdigit())`, with Python's short-circuit
evaluation order. -/
def boundaryCond (lines : List String) (index : Nat) (line : String) :
    Except PyErr Bool := do
  let left ←
    if line = "" then .ok true
    else do
      let a ← firstTokFirstCharDigit line
      .ok (!a)
  if left then do
    let nxt ← pyNth lines (index + 1)
    firstTokFirstCharDigit nxt
  else .ok false

/-- Lines 143-149: the guarded look-ahead inside its own `try`.  Returns
`true` exactly when `lines[index+1][0][0].isdigit()`, the second
space-field of `lines[index+1]` does not contain `"cal_"`, and
`lines[index+2][0][0].isdigit()` all evaluate without an exception; any
exception is swallowed by the inner `except: pass`, leaving the flag
untouched. -/
def lookAheadOk (lines : List String) (index : Nat) : Bool :=
  match lines[index + 1]? with
  | none => false
  | some n1 =>
    match n1.data with
    | [] => false
    | c :: _ =>
      if c.isDigit then
        match (pySplitOn n1 ' ')[1]? with
        | none => false
        | some g1 =>
          if pyContains g1 "cal_" then false
          else
            match lines[index + 2]? with
            | none => false
            | some n2 =>
              match n2.data with
              | [] => false
              | d :: _ => d.isDigit
      else false

/-- Lines 129-139: the calibrator branch, entered when `"cal_"` occurs in
the second space-field `f1`.  Mutation order follows the source:
`cal_lst[counter]` is subscripted before `temp_cal[2]` is read, then
`tag_lst[counter]`; in the `double_sci` case the two `append([])` calls
precede the two in-place appends at `counter + 1` (which, having just grown
both lists, can no longer be out of range). -/
def calBranch (f1 : String) (st : ClsState) : Except ClsState ClsState :=
  let temp := pySplitOn f1 '_'
  if st.counter < st.cal_lst.length then
    match temp with
    | _ :: t1 :: t2 :: _ =>
      let cal1 := st.cal_lst.set st.counter (st.cal_lst.getD st.counter [] ++ [t2])
      if st.counter < st.tag_lst.length then
        let tag1 := st.tag_lst.set st.counter (st.tag_lst.getD st.counter [] ++ [t1])
        if st.double_sci then
          let cal2 := cal1 ++ [[]]
          let tag2 := tag1 ++ [[]]
          let cal3 := cal2.set (st.counter + 1) (cal2.getD (st.counter + 1) [] ++ [t2])
          let tag3 := tag2.set (st.counter + 1) (tag2.getD (st.counter + 1) [] ++ [t1])
          .ok { st with cal_lst := cal3, tag_lst := tag3, double_sci := false }
        else .ok { st with cal_lst := cal1, tag_lst := tag1 }
      else .error { st with cal_lst := cal1 }
    | _ => .error st
  else .error st

/-- Lines 140-155: the science-target branch.  The look-ahead may set
`double_sci` (guarded by `index != len(lines) - 3`, an `Int` comparison);
afterwards `line[3]` raises `IndexError` when the space-split has only
three fields — the flag update survives that skip. -/
def sciBranch (lines : List String) (index : Nat) (f1 f2 : String)
    (rest : List String) (st : ClsState) : Except ClsState ClsState :=
  let ds :=
    if (index : Int) ≠ (lines.length : Int) - 3 ∧ lookAheadOk lines index then true
    else st.double_sci
  match rest with
  | [] => .error { st with double_sci := ds }
  | f3 :: _ =>
    if f3 ≠ "" then
      .ok { st with double_sci := ds,
                    sci_lst := st.sci_lst ++ [pyStrip (f1 ++ " " ++ f2 ++ " " ++ f3)] }
    else
      .ok { st with double_sci := ds,
                    sci_lst := st.sci_lst ++ [pyStrip (f1 ++ " " ++ f2)] }

/-- Lines 116-157: process one line of the bounded block.  `Except.error st`
models an exception reaching the per-line `except: pass` with `st` the
state at the moment it was raised; the loop continues with that state. -/
def processLineE (lines : List String) (index : Nat) (line : String)
    (st : ClsState) : Except ClsState ClsState :=
  match boundaryCond lines index line with
  | .error _ => .error st
  | .ok true =>
    .ok { st with counter := st.counter + 1,
                  cal_lst := st.cal_lst ++ [[]],
                  tag_lst := st.tag_lst ++ [[]] }
  | .ok false =>
    match pySplitOn line ' ' with
    | [] => .ok st
    | f0 :: rest1 =>
      match f0.data with
      | [] => .error st
      | c0 :: _ =>
        if c0.isDigit then
          match rest1 with
          | f1 :: f2 :: rest =>
            if (pySplitOn f0 ':').length = 2 then
              if pyContains f1 "cal_" then calBranch f1 st
              else sciBranch lines index f1 f2 rest st
            else .ok st
          | _ => .ok st
        else .ok st

/-- One step of the loop: the surrounding `try ... except: pass` keeps the
partially updated state and moves on. -/
def stepLine (lines : List String) (st : ClsState) (p : Nat × String) : ClsState :=
  match processLineE lines p.1 p.2 st with
  | .ok s => s
  | .error s => s

/-- Pass 2 of the extraction: fold `stepLine` over the indexed lines. -/
def runPass2 (lines : List String) : ClsState :=
  lines.enum.foldl (stepLine lines) initClsState

/-- Line 109: `[index for index, line in enumerate(lines) if line[0].isdigit()]`.
`line[0]` raises `IndexError` on an empty string. -/
def digitIndicesAux : Nat → List String → Except PyErr (List Nat)
  | _, [] => .ok []
  | i, l :: rest => do
    let c ← pyFirstChar l
    let tl ← digitIndicesAux (i + 1) rest
    if c.isDigit then .ok (i :: tl) else .ok tl

/-- Line 110: `[index for index, line in enumerate(lines) if "calibrator_find" in line]`
(never raises). -/
def calibFindIndicesAux : Nat → List String → List Nat
  | _, [] => []
  | i, l :: rest =>
    if pyContains l "calibrator_find" then i :: calibFindIndicesAux (i + 1) rest
    else calibFindIndicesAux (i + 1) rest

/-- Python `xs[0]` on a list of indices. -/
def pyHead (xs : List Nat) : Except PyErr Nat :=
  match xs with
  | [] => .error .indexError
  | x :: _ => .ok x

/-- Lines 96-159: `get_targets_calibrators_tags(lines)`.  Pass 1 (lines
109-111) computes the bounds — unprotected, so its `IndexError`s escape —
and normalizes `'\n'` lines to `''`; pass 2 folds the classification. -/
def get_targets_calibrators_tags (lines : List String) : Except PyErr NightEntry := do
  let ds ← digitIndicesAux 0 lines
  let line_start ← pyHead ds
  let line_end ← pyHead (calibFindIndicesAux 0 lines)
  let bounded := (sliceTo lines line_start line_end).map
      (fun line => if line = "\n" then "" else line)
  let st := runPass2 bounded
  .ok ⟨st.sci_lst, st.cal_lst, st.tag_lst⟩

/-! ## `parse_night_plan` (parser.py lines 162-215) -/

/-- Lines 46-61: `contains_element` — whole-element equality, not substring. -/
def contains_element (list_to_search : List String) (element_to_search : String) : Bool :=
  list_to_search.any (fun element => element_to_search = element)

/-- Lines 199-209: the body of `parse_night_plan` after the file has been
read into `lines` (file I/O and the optional YAML dump are outside the
parsing core). -/
def parse_night_plan_lines (lines : List String)
    (run_identifier : String := "run") (sub_identifier : String := "night") :
    Except PyErr (List (String × List (String × NightEntry))) := do
  let runs ← get_file_section lines run_identifier
  runs.foldlM (fun night_plan_dict lab_sec => do
    let subs ← get_file_section lab_sec.2 sub_identifier
    let nights ← subs.foldlM (fun nights sub => do
        if contains_element sub.2 "cal_" then do
          let entry ← get_targets_calibrators_tags sub.2
          pure (dictInsert nights sub.1 entry)
        else pure nights) ([] : List (String × NightEntry))
    pure (dictInsert night_plan_dict lab_sec.1 nights)) []

/-- Lines 191-197 wrapped around the body: `some lines` is a successful
read, `none` a `FileNotFoundError`.  The handler at line 196 calls
`warning.warn(...)`, but only the module `warnings` is imported, so the
handler itself raises `NameError` instead of warning and returning the
empty dict. -/
def parse_night_plan_file (contents : Option (List String))
    (run_identifier : String := "run") (sub_identifier : String := "night") :
    Except PyErr (List (String × List (String × NightEntry))) :=
  match contents with
  | none => .error .nameError
  | some lines => parse_night_plan_lines lines run_identifier sub_identifier

/-! ## Auxiliary predicates used in the theorem statements -/

/-- Boolean shape comparison: `CAL` and `TAG` have the same length and every
group has the same inner length. -/
def sameShape (cal tag : List (List String)) : Bool :=
  cal.length == tag.length &&
    (List.range cal.length).all (fun i => (cal.getD i []).length == (tag.getD i []).length)

/-- Propositional counterpart of `sameShape` (over all indices; out-of-range
`getD` defaults make the unbounded form equivalent). -/
def AlignedP (cal tag : List (List String)) : Prop :=
  cal.length = tag.length ∧ ∀ i, (cal.getD i []).length = (tag.getD i []).length

/-- Python `line[0].isdigit()` as a total Bool (empty lines count as
non-digit). -/
def firstCharDigitB (s : String) : Bool :=
  match s.data with
  | [] => false
  | c :: _ => c.isDigit

theorem sameShape_of_alignedP {cal tag : List (List String)} (h : AlignedP cal tag) :
    sameShape cal tag = true := by
  rcases h with ⟨h1, h2⟩
  simp only [sameShape, Bool.and_eq_true, beq_iff_eq, List.all_eq_true, List.mem_range]
  exact ⟨h1, fun i _ => h2 i⟩

theorem alignedP_of_sameShape {cal tag : List (List String)}
    (h : sameShape cal tag = true) : AlignedP cal tag := by
  simp only [sameShape, Bool.and_eq_true, beq_iff_eq, List.all_eq_true, List.mem_range] at h
  rcases h with ⟨h1, h2⟩
  refine ⟨h1, fun i => ?_⟩
  by_cases hi : i < cal.length
  · exact h2 i hi
  · have hc : cal.getD i [] = [] := by
      rw [List.getD_eq_getElem?_getD, List.getElem?_eq_none (by omega)]; rfl
    have ht : tag.getD i [] = [] := by
      rw [List.getD_eq_getElem?_getD, List.getElem?_eq_none (by omega)]; rfl
    rw [hc, ht]

/-! ## Lemmas about the marker scan and the bounds computation -/

theorem exceptBind_ok {ε α β : Type} (a : α) (f : α → Except ε β) :
    ((Except.ok a : Except ε α) >>= f) = f a := rfl

theorem exceptBind_error {ε α β : Type} (e : ε) (f : α → Except ε β) :
    ((Except.error e : Except ε α) >>= f) = Except.error e := rfl

theorem markerScanAux_eq_nil {identifier : String} {lines : List String}
    (h : ∀ line ∈ lines, markerTest identifier line = .ok false) :
    ∀ i, markerScanAux identifier i lines = .ok [] := by
  induction lines with
  | nil => intro i; rfl
  | cons l rest ih =>
    intro i
    have hl : markerTest identifier l = .ok false := h l (List.mem_cons_self l rest)
    have hr := ih (fun line hm => h line (List.mem_cons_of_mem l hm)) (i + 1)
    simp [markerScanAux, hl, hr, exceptBind_ok, exceptBind_error]

theorem digitIndicesAux_of_no_digit {lines : List String}
    (h : ∀ l ∈ lines, firstCharDigitB l = false) :
    ∀ i, digitIndicesAux i lines = .error .indexError ∨
         digitIndicesAux i lines = .ok [] := by
  induction lines with
  | nil => intro i; right; rfl
  | cons l rest ih =>
    intro i
    have hl : firstCharDigitB l = false := h l (List.mem_cons_self l rest)
    cases hd : l.data with
    | nil =>
      left
      simp [digitIndicesAux, pyFirstChar, hd, exceptBind_ok, exceptBind_error]
    | cons c cs =>
      have hc : c.isDigit = false := by
        have := hl; rwa [firstCharDigitB, hd] at this
      rcases ih (fun x hx => h x (List.mem_cons_of_mem l hx)) (i + 1) with hr | hr
      · left; simp [digitIndicesAux, pyFirstChar, hd, hr, exceptBind_ok, exceptBind_error]
      · right; simp [digitIndicesAux, pyFirstChar, hd, hr, hc, exceptBind_ok, exceptBind_error]

theorem digitIndicesAux_error_kind {lines : List String} :
    ∀ i e, digitIndicesAux i lines = .error e → e = .indexError := by
  induction lines with
  | nil => intro i e h; exact absurd h (by simp [digitIndicesAux])
  | cons l rest ih =>
    intro i e h
    cases hd : l.data with
    | nil =>
      rw [digitIndicesAux, pyFirstChar, hd] at h
      simp [exceptBind_ok, exceptBind_error] at h
      exact h.symm
    | cons c cs =>
      rw [digitIndicesAux, pyFirstChar, hd] at h
      cases hr : digitIndicesAux (i + 1) rest with
      | error e2 =>
        have := ih (i + 1) e2 hr
        subst this
        simp [hr, exceptBind_ok, exceptBind_error] at h
        exact h.symm
      | ok tl =>
        simp [hr, exceptBind_ok, exceptBind_error] at h
        cases hcd : c.isDigit <;> simp [hcd] at h

theorem calibFindIndicesAux_of_none {lines : List String}
    (h : ∀ l ∈ lines, pyContains l "calibrator_find" = false) :
    ∀ i, calibFindIndicesAux i lines = [] := by
  induction lines with
  | nil => intro i; rfl
  | cons l rest ih =>
    intro i
    have hl := h l (List.mem_cons_self l rest)
    have hr := ih (fun x hx => h x (List.mem_cons_of_mem l hx)) (i + 1)
    simp [calibFindIndicesAux, hl, hr]

/-! ## Shape preservation of the classification loop -/

theorem alignedP_init : AlignedP initClsState.cal_lst initClsState.tag_lst := by
  refine ⟨rfl, fun i => ?_⟩
  cases i with
  | zero => rfl
  | succ n => simp [initClsState, List.getD]

theorem alignedP_snoc {c t : List (List String)} (h : AlignedP c t) :
    AlignedP (c ++ [[]]) (t ++ [[]]) := by
  rcases h with ⟨h1, h2⟩
  refine ⟨by simp [h1], fun i => ?_⟩
  rw [List.getD_eq_getElem?_getD, List.getD_eq_getElem?_getD,
      List.getElem?_append, List.getElem?_append]
  by_cases hi : i < c.length
  · have hi' : i < t.length := by omega
    rw [if_pos hi, if_pos hi']
    have := h2 i
    rwa [List.getD_eq_getElem?_getD, List.getD_eq_getElem?_getD] at this
  · have hi' : ¬ i < t.length := by omega
    rw [if_neg hi, if_neg hi', h1]

theorem alignedP_appendAt {ca tg : List (List String)} (h : AlignedP ca tg) (k : Nat)
    (hk : k < ca.length) (x y : String) :
    AlignedP (ca.set k (ca.getD k [] ++ [x])) (tg.set k (tg.getD k [] ++ [y])) := by
  rcases h with ⟨h1, h2⟩
  have hk' : k < tg.length := by omega
  have h2' : ∀ (i : Nat),
      (ca[i]?.getD ([] : List String)).length = (tg[i]?.getD ([] : List String)).length := by
    intro i
    have := h2 i
    simpa only [List.getD_eq_getElem?_getD] using this
  refine ⟨by simp [h1], fun i => ?_⟩
  simp only [List.getD_eq_getElem?_getD, List.getElem?_set]
  by_cases hik : k = i
  · subst hik
    simp only [if_pos rfl, hk, hk', if_true, Option.getD_some, List.length_append, h2' k]
    simp
  · simp only [if_neg hik, h2' i]

theorem calBranch_error_eq {f1 : String} {st st' : ClsState}
    (hlen : st.cal_lst.length = st.tag_lst.length)
    (h : calBranch f1 st = .error st') : st' = st := by
  unfold calBranch at h
  dsimp only [] at h
  split at h
  · split at h
    · rw [if_pos (by omega : st.counter < st.tag_lst.length)] at h
      split at h <;> exact Except.noConfusion h
    · injection h with h'; exact h'.symm
  · injection h with h'; exact h'.symm

theorem calBranch_ok_aligned {f1 : String} {st st' : ClsState}
    (h : AlignedP st.cal_lst st.tag_lst)
    (hok : calBranch f1 st = .ok st') : AlignedP st'.cal_lst st'.tag_lst := by
  have hlen : st.cal_lst.length = st.tag_lst.length := h.1
  unfold calBranch at hok
  dsimp only [] at hok
  by_cases hc : st.counter < st.cal_lst.length
  · rw [if_pos hc] at hok
    have ht : st.counter < st.tag_lst.length := by omega
    cases htemp : pySplitOn f1 '_' with
    | nil => rw [htemp] at hok; exact Except.noConfusion hok
    | cons t0 r0 =>
      cases r0 with
      | nil => rw [htemp] at hok; exact Except.noConfusion hok
      | cons t1 r1 =>
        cases r1 with
        | nil => rw [htemp] at hok; exact Except.noConfusion hok
        | cons t2 r2 =>
          rw [htemp] at hok
          dsimp only [] at hok
          rw [if_pos ht] at hok
          have base := alignedP_appendAt h st.counter hc t2 t1
          by_cases hds : st.double_sci = true
          · rw [if_pos hds] at hok
            injection hok with h'
            subst h'
            refine alignedP_appendAt (alignedP_snoc base) (st.counter + 1) ?_ t2 t1
            simp only [List.length_append, List.length_set]
            simp
            omega
          · rw [if_neg hds] at hok
            injection hok with h'
            subst h'
            exact base
  · rw [if_neg hc] at hok
    exact Except.noConfusion hok

theorem sciBranch_error_fields {lines : List String} {index : Nat}
    {f1 f2 : String} {rest : List String} {st st' : ClsState}
    (h : sciBranch lines index f1 f2 rest st = .error st') :
    st'.sci_lst = st.sci_lst ∧ st'.cal_lst = st.cal_lst ∧ st'.tag_lst = st.tag_lst := by
  unfold sciBranch at h
  dsimp only [] at h
  cases rest with
  | nil =>
    injection h with h'
    subst h'
    exact ⟨rfl, rfl, rfl⟩
  | cons f3 r3 =>
    dsimp only [] at h
    by_cases h3 : f3 ≠ ""
    · rw [if_pos h3] at h; exact Except.noConfusion h
    · rw [if_neg h3] at h; exact Except.noConfusion h

theorem sciBranch_ok_fields {lines : List String} {index : Nat}
    {f1 f2 : String} {rest : List String} {st st' : ClsState}
    (h : sciBranch lines index f1 f2 rest st = .ok st') :
    st'.cal_lst = st.cal_lst ∧ st'.tag_lst = st.tag_lst := by
  unfold sciBranch at h
  dsimp only [] at h
  cases rest with
  | nil => exact Except.noConfusion h
  | cons f3 r3 =>
    dsimp only [] at h
    by_cases h3 : f3 ≠ ""
    · rw [if_pos h3] at h
      injection h with h'
      subst h'
      exact ⟨rfl, rfl⟩
    · rw [if_neg h3] at h
      injection h with h'
      subst h'
      exact ⟨rfl, rfl⟩

theorem processLineE_error_fields {lines : List String} {index : Nat}
    {line : String} {st st' : ClsState}
    (hlen : st.cal_lst.length = st.tag_lst.length)
    (h : processLineE lines index line st = .error st') :
    st'.sci_lst = st.sci_lst ∧ st'.cal_lst = st.cal_lst ∧ st'.tag_lst = st.tag_lst := by
  unfold processLineE at h
  cases hb : boundaryCond lines index line with
  | error e =>
    rw [hb] at h
    injection h with h'
    subst h'
    exact ⟨rfl, rfl, rfl⟩
  | ok b =>
    rw [hb] at h
    cases b with
    | true => exact Except.noConfusion h
    | false =>
      dsimp only [] at h
      cases hsp : pySplitOn line ' ' with
      | nil => rw [hsp] at h; exact Except.noConfusion h
      | cons f0 rest1 =>
        rw [hsp] at h
        dsimp only [] at h
        cases hf0 : f0.data with
        | nil =>
          rw [hf0] at h
          injection h with h'
          subst h'
          exact ⟨rfl, rfl, rfl⟩
        | cons c0 cr =>
          rw [hf0] at h
          dsimp only [] at h
          by_cases hd : c0.isDigit = true
          · rw [if_pos hd] at h
            cases rest1 with
            | nil => exact Except.noConfusion h
            | cons f1 r1 =>
              cases r1 with
              | nil => exact Except.noConfusion h
              | cons f2 rest =>
                dsimp only [] at h
                by_cases hcol : (pySplitOn f0 ':').length = 2
                · rw [if_pos hcol] at h
                  by_cases hcal : pyContains f1 "cal_" = true
                  · rw [if_pos hcal] at h
                    have := calBranch_error_eq hlen h
                    subst this
                    exact ⟨rfl, rfl, rfl⟩
                  · rw [if_neg hcal] at h
                    exact sciBranch_error_fields h
                · rw [if_neg hcol] at h
                  exact Except.noConfusion h
          · rw [if_neg hd] at h
            exact Except.noConfusion h

theorem processLineE_ok_aligned {lines : List String} {index : Nat}
    {line : String} {st st' : ClsState}
    (h : AlignedP st.cal_lst st.tag_lst)
    (hok : processLineE lines index line st = .ok st') :
    AlignedP st'.cal_lst st'.tag_lst := by
  unfold processLineE at hok
  cases hb : boundaryCond lines index line with
  | error e => rw [hb] at hok; exact Except.noConfusion hok
  | ok b =>
    rw [hb] at hok
    cases b with
    | true =>
      dsimp only [] at hok
      injection hok with h'
      subst h'
      exact alignedP_snoc h
    | false =>
      dsimp only [] at hok
      cases hsp : pySplitOn line ' ' with
      | nil =>
        rw [hsp] at hok
        injection hok with h'
        subst h'
        exact h
      | cons f0 rest1 =>
        rw [hsp] at hok
        dsimp only [] at hok
        cases hf0 : f0.data with
        | nil => rw [hf0] at hok; exact Except.noConfusion hok
        | cons c0 cr =>
          rw [hf0] at hok
          dsimp only [] at hok
          by_cases hd : c0.isDigit = true
          · rw [if_pos hd] at hok
            cases rest1 with
            | nil =>
              injection hok with h'
              subst h'
              exact h
            | cons f1 r1 =>
              cases r1 with
              | nil =>
                injection hok with h'
                subst h'
                exact h
              | cons f2 rest =>
                dsimp only [] at hok
                by_cases hcol : (pySplitOn f0 ':').length = 2
                · rw [if_pos hcol] at hok
                  by_cases hcal : pyContains f1 "cal_" = true
                  · rw [if_pos hcal] at hok
                    exact calBranch_ok_aligned h hok
                  · rw [if_neg hcal] at hok
                    have hf := sciBranch_ok_fields hok
                    rw [hf.1, hf.2]
                    exact h
                · rw [if_neg hcol] at hok
                  injection hok with h'
                  subst h'
                  exact h
          · rw [if_neg hd] at hok
            injection hok with h'
            subst h'
            exact h

theorem stepLine_aligned {lines : List String} {st : ClsState} {p : Nat × String}
    (h : AlignedP st.cal_lst st.tag_lst) :
    AlignedP (stepLine lines st p).cal_lst (stepLine lines st p).tag_lst := by
  unfold stepLine
  cases hp : processLineE lines p.1 p.2 st with
  | ok s => exact processLineE_ok_aligned h hp
  | error s =>
    have hf := processLineE_error_fields h.1 hp
    rw [hf.2.1, hf.2.2]
    exact h

theorem foldl_stepLine_aligned (lines : List String) :
    ∀ (l : List (Nat × String)) (st : ClsState), AlignedP st.cal_lst st.tag_lst →
      AlignedP (l.foldl (stepLine lines) st).cal_lst (l.foldl (stepLine lines) st).tag_lst := by
  intro l
  induction l with
  | nil => intro st h; exact h
  | cons p rest ih =>
    intro st h
    exact ih _ (stepLine_aligned h)

/-! ## Claim theorems -/

/-- C9: for an input with zero marker lines for the identifier (the marker
scan completes and finds none), `get_file_section` returns exactly one
entry labelled `"full_" ++ identifier` whose section is the entire input. -/
theorem get_file_section_no_marker_full (lines : List String) (identifier : String)
    (h : ∀ line ∈ lines, markerTest identifier line = .ok false) :
    get_file_section lines identifier = .ok [("full_" ++ identifier, lines)] := by
  have hms := markerScanAux_eq_nil h 0
  simp [get_file_section, hms, exceptBind_ok, exceptBind_error, dictOf, dictInsert]

theorem get_file_section_no_marker_full_witness :
    get_file_section ["a\n", "b\n"] "run" = .ok [("full_" ++ "run", ["a\n", "b\n"])] :=
  get_file_section_no_marker_full ["a\n", "b\n"] "run" (by decide)

/-- C10: `get_targets_calibrators_tags` is partial at its entry: if the
input has no line whose first character is a digit, or no line containing
`"calibrator_find"`, the unprotected bounds computation (lines 109-110)
raises `IndexError` and the function aborts instead of returning an empty
`NightEntry`. -/
theorem get_targets_aborts_without_bounds (lines : List String)
    (h : (∀ l ∈ lines, firstCharDigitB l = false) ∨
         (∀ l ∈ lines, pyContains l "calibrator_find" = false)) :
    get_targets_calibrators_tags lines = .error .indexError := by
  rcases h with hd | hc
  · rcases digitIndicesAux_of_no_digit hd 0 with he | he <;>
      simp [get_targets_calibrators_tags, he, exceptBind_ok, exceptBind_error, pyHead]
  · cases hds : digitIndicesAux 0 lines with
    | error e =>
      have := digitIndicesAux_error_kind 0 e hds
      subst this
      simp [get_targets_calibrators_tags, hds, exceptBind_ok, exceptBind_error]
    | ok ds =>
      cases ds with
      | nil => simp [get_targets_calibrators_tags, hds, exceptBind_ok, exceptBind_error, pyHead]
      | cons d ds' =>
        have hcf := calibFindIndicesAux_of_none hc 0
        simp [get_targets_calibrators_tags, hds, hcf, exceptBind_ok, exceptBind_error, pyHead]

theorem get_targets_aborts_without_bounds_witness :
    get_targets_calibrators_tags ["abc\n"] = .error .indexError :=
  get_targets_aborts_without_bounds ["abc\n"] (Or.inl (by decide))

/-- C3: whenever `get_targets_calibrators_tags` returns a `NightEntry`, the
CAL and TAG lists have the same length and every inner CAL group has the
same length as the corresponding TAG group. -/
theorem get_targets_cal_tag_same_shape (lines : List String) (e : NightEntry)
    (h : get_targets_calibrators_tags lines = .ok e) :
    sameShape e.CAL e.TAG = true := by
  unfold get_targets_calibrators_tags at h
  cases h1 : digitIndicesAux 0 lines with
  | error e1 => rw [h1] at h; simp only [exceptBind_error] at h; exact Except.noConfusion h
  | ok ds =>
    rw [h1] at h
    simp only [exceptBind_ok] at h
    cases h2 : pyHead ds with
    | error e2 => rw [h2] at h; simp only [exceptBind_error] at h; exact Except.noConfusion h
    | ok line_start =>
      rw [h2] at h
      simp only [exceptBind_ok] at h
      cases h3 : pyHead (calibFindIndicesAux 0 lines) with
      | error e3 => rw [h3] at h; simp only [exceptBind_error] at h; exact Except.noConfusion h
      | ok line_end =>
        rw [h3] at h
        simp only [exceptBind_ok] at h
        injection h with h'
        subst h'
        exact sameShape_of_alignedP (foldl_stepLine_aligned _ _ _ alignedP_init)

theorem get_targets_cal_tag_same_shape_witness :
    sameShape [["HD999"]] [["N"]] = true :=
  get_targets_cal_tag_same_shape ["1: cal_N_HD999 x\n", "calibrator_find\n"]
    ⟨[], [["HD999"]], [["N"]]⟩ (by decide)

/-- C5: a line of the classification pass whose processing raises (reaching
the per-line `except: pass`) leaves SCI, CAL and TAG exactly as they were,
and the loop continues with that state instead of aborting.  The length
hypothesis holds for every state reachable from the initial one. -/
theorem skipped_line_contributes_nothing (lines : List String) (index : Nat)
    (line : String) (st st' : ClsState)
    (hlen : st.cal_lst.length = st.tag_lst.length)
    (herr : processLineE lines index line st = .error st') :
    stepLine lines st (index, line) = st' ∧
    st'.sci_lst = st.sci_lst ∧ st'.cal_lst = st.cal_lst ∧ st'.tag_lst = st.tag_lst := by
  refine ⟨?_, processLineE_error_fields hlen herr⟩
  unfold stepLine
  dsimp only []
  rw [herr]

theorem skipped_line_contributes_nothing_witness :
    stepLine ["xx\n"] (ClsState.mk ["s"] [["c"]] [["t"]] false 0) (0, "xx\n") =
      ClsState.mk ["s"] [["c"]] [["t"]] false 0 ∧
    (ClsState.mk ["s"] [["c"]] [["t"]] false 0).sci_lst = ["s"] ∧
    (ClsState.mk ["s"] [["c"]] [["t"]] false 0).cal_lst = [["c"]] ∧
    (ClsState.mk ["s"] [["c"]] [["t"]] false 0).tag_lst = [["t"]] :=
  skipped_line_contributes_nothing ["xx\n"] 0 "xx\n"
    (ClsState.mk ["s"] [["c"]] [["t"]] false 0)
    (ClsState.mk ["s"] [["c"]] [["t"]] false 0) (by decide) (by decide)

/-- C1 (code bug): with two marker lines for `"run"` the section
comprehension evaluates `indices[i+1]` at the last marker, an out-of-range
access, so `get_file_section` raises `IndexError` instead of returning the
two sections the claim (and the function's own docstring) describe. -/
theorem get_file_section_two_markers_raises :
    get_file_section ["run A\n", "x\n", "run B\n", "y\n"] "run" =
      .error .indexError := by decide

/-- C2 (code bug): a plan with one `"run"` marker and two `"night"` markers
never yields a mapping: sectioning the run by `"night"` hits the same
`indices[i+1]` out-of-range access, so `parse_night_plan` raises
`IndexError` instead of returning the one-run / one-night dictionary. -/
theorem parse_night_plan_two_nights_raises :
    parse_night_plan_lines
        ["run 1\n", "night A\n", "1: cal_LN_HD1 x\n", "cal_",
         "calibrator_find\n", "night B\n", "2: xx\n"] "run" "night" =
      .error .indexError := by decide

/-- C4 (code bug): when the file is missing, the handler calls
`warning.warn(...)` but only the module `warnings` is imported, so the
handler raises `NameError`; no warning is emitted and no empty mapping is
returned. -/
theorem parse_night_plan_missing_file_name_error :
    parse_night_plan_file none "run" "night" = .error .nameError := rfl

/-- C8: the calibrator line `"1: cal_LN_HD12345 extra"` yields the TAG
entry `"LN"` and the CAL entry `"HD12345"`, appended to the current group. -/
theorem cal_line_yields_tag_and_id :
    get_targets_calibrators_tags ["1: cal_LN_HD12345 extra\n", "calibrator_find\n"] =
      .ok ⟨[], [["HD12345"]], [["LN"]]⟩ := by decide

/-- C6 counterexample: a bounded interval that is exactly two target lines
followed by one calibrator line puts the first target at index
`len(lines) - 3`, where the look-ahead guard skips the `double_sci` check,
so the calibrator/tag pair lands in a single group instead of two. -/
theorem double_sci_three_line_block_single_group :
    get_targets_calibrators_tags
        ["1: AA Tau x\n", "2: BB Ori x\n", "3: cal_LN_HD1 x\n", "calibrator_find\n"] =
      .ok ⟨["AA Tau x", "BB Ori x"], [["HD1"]], [["LN"]]⟩ := by decide

/-- C6 (amended): when the two consecutive target lines followed by one
calibrator line do not start at index `len(lines) - 3` of the bounded
interval (here a trailing blank line shifts the guard), the same
calibrator/tag pair is appended to two separate CAL/TAG groups. -/
theorem double_sci_duplicates_pair :
    get_targets_calibrators_tags
        ["1: AA Tau x\n", "2: BB Ori x\n", "3: cal_LN_HD1 x\n", "\n", "calibrator_find\n"] =
      .ok ⟨["AA Tau x", "BB Ori x"], [["HD1"], ["HD1"]], [["LN"], ["LN"]]⟩ := by decide

/-- C7 counterexample: the target line `"2: MY Lup"` has only three
space-split fields, so `line[3]` raises and the line is skipped (no SCI
entry at all), and `"3: HD 56 Tau"` yields `"HD 56 Tau"` — the third name
token is kept, not dropped: the claimed entries `"MY Lup"` and `"HD 56"`
do not appear. -/
theorem sci_short_line_skipped_and_third_token_kept :
    get_targets_calibrators_tags ["2: MY Lup\n", "3: HD 56 Tau\n", "calibrator_find\n"] =
      .ok ⟨["HD 56 Tau"], [[]], [[]]⟩ ∧
    "MY Lup" ∉ (["HD 56 Tau"] : List String) ∧
    "HD 56" ∉ (["HD 56 Tau"] : List String) := by decide

/-- C7 (amended): a target line with three space-split fields is skipped by
the error policy; with a trailing space (empty fourth field) `"2: MY Lup "`
yields `"MY Lup"`, and `"3: HD 56 Tau"` (non-empty fourth field) yields
`"HD 56 Tau"` — fields 1-3 after the numeric head are all joined. -/
theorem sci_field_join_amended :
    get_targets_calibrators_tags ["2: MY Lup \n", "3: HD 56 Tau\n", "calibrator_find\n"] =
      .ok ⟨["MY Lup", "HD 56 Tau"], [[]], [[]]⟩ := by decide

end P2obp
